import Mathlib

/-!
Verification development for the funding_slackbot repository.

The Python modules are shallowly embedded as executable Lean definitions:
  * `store/sqlite_store.py`  — the dedupe store upsert (`mark_seen`) and lookup
    (`has_seen`), modelled as an in-memory keyed list with the exact
    ON CONFLICT merge semantics of the SQL statement.
  * `service.py`             — `FundingOpportunityService.run_once`, modelled as
    a state-passing fold producing the final store, run statistics and a trace
    of externally visible events (store writes, notifier invocations, previews).
  * `filters/keyword_filter.py` — the rule-based filter with a direct character
    level model of the compiled keyword regex.
  * `sources/rss_source.py`  — the competition-card cross-source dedup
    (`_matches_ukri_title`, `_fetch_ukri_title_keys`) with a model of
    difflib.SequenceMatcher.
  * `utils/url_utils.py`     — `canonicalize_url` / `derive_external_id`,
    together with models of the Python stdlib functions they call
    (urlsplit, urlunsplit, parse_qsl, urlencode, quote/unquote, sha256).

Python datetimes are modelled as natural numbers; a Python function that can
raise is modelled with `Option` (`none` = exception propagates).
-/

namespace FundingBot

/-! ### Generic character and list utilities -/

/-- Characters stripped by Python `str.strip()` (the Unicode whitespace set;
listed explicitly). -/
def isPySpaceChar (c : Char) : Bool :=
  let n := c.toNat
  (9 ≤ n && n ≤ 13) || n = 32 || (28 ≤ n && n ≤ 31) || n = 0x85 || n = 0xA0 ||
  n = 0x1680 || (0x2000 ≤ n && n ≤ 0x200A) || n = 0x2028 || n = 0x2029 ||
  n = 0x202F || n = 0x205F || n = 0x3000

/-- Drop trailing characters satisfying `p`. -/
def dropTrailing (p : Char → Bool) (cs : List Char) : List Char :=
  (cs.reverse.dropWhile p).reverse

/-- Python `str.strip()` on a character list. -/
def pyStripList (cs : List Char) : List Char :=
  dropTrailing isPySpaceChar (cs.dropWhile isPySpaceChar)

/-- `SeenRecord` from `store/base.py`; datetimes are modelled as `Nat`. -/
structure SeenRecord where
  external_id : String
  source_id : String
  first_seen_at : Nat
  posted_at : Option Nat
  title : String
  url : String
  match_reason : Option String
deriving Repr, DecidableEq

/-- SQL `COALESCE` of two nullable values. -/
def coalesce {α : Type} : Option α → Option α → Option α
  | some v, _ => some v
  | none, b => b

/-- The opportunities table, keyed by `external_id` (the primary key). -/
abbrev StoreDB := List SeenRecord

/-- `SQLiteStore.has_seen`: look up the row for an external id. -/
def has_seen (db : StoreDB) (external_id : String) : Option SeenRecord :=
  match db with
  | [] => none
  | r :: rest => if r.external_id = external_id then some r else has_seen rest external_id

/-- The `ON CONFLICT(external_id) DO UPDATE SET` clause of
`SQLiteStore.mark_seen`: `source_id`/`title`/`url` take the excluded (new)
values, `match_reason = COALESCE(excluded.match_reason, old.match_reason)`,
`posted_at = COALESCE(old.posted_at, excluded.posted_at)`; `first_seen_at` is
not listed in the UPDATE, so it keeps its stored value. -/
def mergeSeen (old : SeenRecord) (source_id title url : String)
    (match_reason : Option String) (posted_at : Option Nat) : SeenRecord :=
  { external_id := old.external_id
    source_id := source_id
    first_seen_at := old.first_seen_at
    posted_at := coalesce old.posted_at posted_at
    title := title
    url := url
    match_reason := coalesce match_reason old.match_reason }

/-- `SQLiteStore.mark_seen` (`now` is the clock value used for
`first_seen_at` on a fresh insert). -/
def mark_seen (db : StoreDB) (now : Nat) (external_id source_id title url : String)
    (match_reason : Option String) (posted_at : Option Nat) : StoreDB :=
  match db with
  | [] => [⟨external_id, source_id, now, posted_at, title, url, match_reason⟩]
  | r :: rest =>
    if r.external_id = external_id then
      mergeSeen r source_id title url match_reason posted_at :: rest
    else
      r :: mark_seen rest now external_id source_id title url match_reason posted_at

/-- The argument tuple of one `mark_seen` call. -/
structure MarkCall where
  now : Nat
  external_id : String
  source_id : String
  title : String
  url : String
  match_reason : Option String
  posted_at : Option Nat

/-- Apply one `mark_seen` call. -/
def applyCall (db : StoreDB) (c : MarkCall) : StoreDB :=
  mark_seen db c.now c.external_id c.source_id c.title c.url c.match_reason c.posted_at

/-- Apply a sequence of `mark_seen` calls in order. -/
def runCalls (db : StoreDB) (calls : List MarkCall) : StoreDB :=
  calls.foldl applyCall db

/-! ### Orchestration service: `service.py` -/

/-- `Opportunity` from `models.py` (datetimes as `Nat`/`Int`; the opaque `raw`
snapshot is not represented, nothing in the verified modules reads it). -/
structure Opportunity where
  source_id : String
  external_id : String
  title : String
  url : String
  published_at : Option Int
  summary : String
  closing_date : Option Int := none
  opening_date : Option Int := none
  funder : Option String := none
  funding_type : Option String := none
  total_fund : Option String := none
deriving Repr, DecidableEq

/-- `FilterResult` from `filters/base.py`. -/
structure FilterResult where
  matched : Bool
  reasons : List String
deriving Repr, DecidableEq

/-- `FilterResult.reason_text`. -/
def FilterResult.reason_text (r : FilterResult) : String :=
  match r.reasons with
  | [] => "no specific reason"
  | _ => String.intercalate "; " r.reasons

/-- `_PENDING_POST_MARKER` in `service.py`. -/
def PENDING_POST_MARKER : String := "__pending_post__"

/-- `_POST_FAILED_MARKER` in `service.py`. -/
def POST_FAILED_MARKER : String := "__post_failed__"

/-- `_is_pending_post_reason` in `service.py`. -/
def is_pending_post_reason : Option String → Bool
  | some s => s = PENDING_POST_MARKER
  | none => false

/-- `RunStats` from `service.py`. -/
structure RunStats where
  processed : Nat := 0
  matched : Nat := 0
  filtered_out : Nat := 0
  posted : Nat := 0
  skipped_already_posted : Nat := 0
  skipped_pending_confirmation : Nat := 0
  errors : List String := []
deriving Repr, DecidableEq

/-- Externally visible effects of a run, in order of occurrence: store writes
(`mark_seen` invocations), notifier invocations (`notifier.post`), and dry-run
preview callbacks. -/
inductive Event where
  | markSeen (external_id source_id title url : String)
      (match_reason : Option String) (posted_at : Option Nat)
  | notify (external_id : String) (reason : String)
  | preview (external_id : String) (reason : String)
deriving Repr, DecidableEq

/-- The external id an event refers to. -/
def Event.eid : Event → String
  | .markSeen i _ _ _ _ _ => i
  | .notify i _ => i
  | .preview i _ => i

/-- Whether an event is a store write. -/
def Event.isMarkSeen : Event → Bool
  | .markSeen _ _ _ _ _ _ => true
  | _ => false

/-- Whether an event is a notifier invocation. -/
def Event.isNotify : Event → Bool
  | .notify _ _ => true
  | _ => false

/-- The configuration and collaborators of `FundingOpportunityService`.
The filter engine is the abstract `Filter.evaluate` capability; the notifier is
modelled by its presence and by which posts raise (`notifierOk o = false`
models `notifier.post` raising for `o`). The store collaborator is the
in-memory model above, whose operations do not fail, so the service's
store-exception handlers are not exercised. -/
structure ServiceConfig where
  filter_engine : Opportunity → FilterResult
  notifierPresent : Bool
  notifierOk : Opportunity → Bool
  max_posts_per_run : Nat
  record_non_matches_as_seen : Bool
  dry_run : Bool

/-- Result of processing: store, stats, event trace, and whether `run_once`
executed a `return stats` (stopping the whole run). -/
structure StepOut where
  db : StoreDB
  stats : RunStats
  events : List Event
  stop : Bool
deriving Repr, DecidableEq

/-- The body of the `for opportunity in opportunities` loop of
`FundingOpportunityService.run_once`, after the posting-cap check. -/
def processOpportunity (cfg : ServiceConfig) (now : Nat) (db : StoreDB)
    (stats : RunStats) (o : Opportunity) : StepOut :=
  let stats := { stats with processed := stats.processed + 1 }
  let seenPosted : Bool :=
    match has_seen db o.external_id with
    | some r => r.posted_at.isSome
    | none => false
  let seenPending : Bool :=
    match has_seen db o.external_id with
    | some r => is_pending_post_reason r.match_reason
    | none => false
  if seenPosted then
    ⟨db, { stats with skipped_already_posted := stats.skipped_already_posted + 1 }, [], false⟩
  else if seenPending then
    ⟨db, { stats with skipped_pending_confirmation := stats.skipped_pending_confirmation + 1 }, [], false⟩
  else
    let fr := cfg.filter_engine o
    if !fr.matched then
      let stats := { stats with filtered_out := stats.filtered_out + 1 }
      if cfg.record_non_matches_as_seen && !cfg.dry_run then
        ⟨mark_seen db now o.external_id o.source_id o.title o.url (some fr.reason_text) none,
          stats,
          [.markSeen o.external_id o.source_id o.title o.url (some fr.reason_text) none],
          false⟩
      else
        ⟨db, stats, [], false⟩
    else
      let stats := { stats with matched := stats.matched + 1 }
      let reason := fr.reason_text
      if cfg.dry_run then
        ⟨db, stats, [.preview o.external_id reason], false⟩
      else if !cfg.notifierPresent then
        ⟨db, { stats with errors := stats.errors ++ ["notifier is required when dry_run is false"] },
          [], true⟩
      else
        let db1 := mark_seen db now o.external_id o.source_id o.title o.url
          (some PENDING_POST_MARKER) none
        let ev1 : Event := .markSeen o.external_id o.source_id o.title o.url
          (some PENDING_POST_MARKER) none
        if cfg.notifierOk o then
          let db2 := mark_seen db1 now o.external_id o.source_id o.title o.url
            (some reason) (some now)
          ⟨db2,
            { stats with posted := stats.posted + 1 },
            [ev1, .notify o.external_id reason,
              .markSeen o.external_id o.source_id o.title o.url (some reason) (some now)],
            false⟩
        else
          let failReason := POST_FAILED_MARKER ++ ": " ++ reason
          let db2 := mark_seen db1 now o.external_id o.source_id o.title o.url
            (some failReason) none
          ⟨db2,
            { stats with errors := stats.errors ++ ["failed to post " ++ o.external_id] },
            [ev1, .notify o.external_id reason,
              .markSeen o.external_id o.source_id o.title o.url (some failReason) none],
            false⟩

/-- The inner opportunity loop, including the posting-cap check at the top of
each iteration (a reached cap executes `return stats`, stopping the run). -/
def runOpportunities (cfg : ServiceConfig) (now : Nat) :
    StoreDB → RunStats → List Opportunity → StepOut
  | db, stats, [] => ⟨db, stats, [], false⟩
  | db, stats, o :: rest =>
    if decide (cfg.max_posts_per_run ≤ stats.posted) then
      ⟨db, stats, [], true⟩
    else
      let s := processOpportunity cfg now db stats o
      if s.stop then s
      else
        let t := runOpportunities cfg now s.db s.stats rest
        ⟨t.db, t.stats, s.events ++ t.events, t.stop⟩

/-- The result of one `source.fetch()`: either the opportunity list, or the
message of the exception it raised. -/
abbrev FetchResult := Except String (List Opportunity)

/-- The outer source loop of `run_once`: a failed fetch records a run error and
continues with the next source. -/
def runSources (cfg : ServiceConfig) (now : Nat) :
    StoreDB → RunStats → List FetchResult → StepOut
  | db, stats, [] => ⟨db, stats, [], false⟩
  | db, stats, f :: rest =>
    match f with
    | .error msg =>
      runSources cfg now db
        { stats with errors := stats.errors ++ ["source fetch failed: " ++ msg] } rest
    | .ok opps =>
      let s := runOpportunities cfg now db stats opps
      if s.stop then s
      else
        let t := runSources cfg now s.db s.stats rest
        ⟨t.db, t.stats, s.events ++ t.events, t.stop⟩

/-- `FundingOpportunityService.run_once`, as a function of the fetch results of
the configured sources. -/
def run_once (cfg : ServiceConfig) (now : Nat) (db : StoreDB)
    (fetches : List FetchResult) : StepOut :=
  runSources cfg now db { } fetches

/-! ### Rule-based filter: `filters/keyword_filter.py`

The compiled keyword regex
`(?<![A-Za-z0-9])part1\s+part2...(?![A-Za-z0-9])` with `re.IGNORECASE` is
modelled character by character: literal parts are matched case-insensitively
(`Char.toLower`, exact on ASCII, models `re.IGNORECASE`), `\s+` is matched
greedily (equivalent to the regex since parts contain no whitespace), and the
two lookarounds check the neighbouring characters against `[A-Za-z0-9]`. -/

/-- The characters `urlencode` with `quote_plus` can emit: printable ASCII
other than `#` and `?` (used to show the encoded query survives re-parsing and
re-stripping). -/
def goodQueryChar (c : Char) : Bool :=
  (0x20 < c.toNat && c.toNat < 0x7F) && !(c = '#') && !(c = '?')

/-- The run-once skip guard for an id: the stored record is confirmed posted,
or carries the pending-post sentinel (and no posted timestamp). -/
def skipGuard (db : StoreDB) (id : String) : Prop :=
  ∃ r, has_seen db id = some r ∧
    (r.posted_at.isSome = true ∨
      (r.posted_at = none ∧ is_pending_post_reason r.match_reason = true))

/-! ## Theorems -/

/-! ### Store lemmas -/

theorem mergeSeen_external_id (r : SeenRecord) (sid t u : String)
    (mr : Option String) (pa : Option Nat) :
    (mergeSeen r sid t u mr pa).external_id = r.external_id := rfl

theorem has_seen_mark_seen_self (db : StoreDB) (now : Nat)
    (id sid t u : String) (mr : Option String) (pa : Option Nat) :
    has_seen (mark_seen db now id sid t u mr pa) id =
      some (match has_seen db id with
            | some r => mergeSeen r sid t u mr pa
            | none => ⟨id, sid, now, pa, t, u, mr⟩) := by
  induction db with
  | nil => simp [mark_seen, has_seen]
  | cons r rest ih =>
    by_cases h : r.external_id = id
    · simp [mark_seen, has_seen, h, mergeSeen]
    · simp [mark_seen, has_seen, h, ih]

theorem has_seen_mark_seen_ne (db : StoreDB) (now : Nat)
    (id id2 sid t u : String) (mr : Option String) (pa : Option Nat)
    (h : id2 ≠ id) :
    has_seen (mark_seen db now id2 sid t u mr pa) id = has_seen db id := by
  induction db with
  | nil => simp [mark_seen, has_seen, h]
  | cons r rest ih =>
    by_cases h2 : r.external_id = id2
    · have : r.external_id ≠ id := by rw [h2]; exact h
      simp [mark_seen, has_seen, h2, this, mergeSeen, h]
    · simp [mark_seen, has_seen, h2, ih]

theorem record_fields_preserved_one (db : StoreDB) (id : String) (r : SeenRecord)
    (c : MarkCall) (h : has_seen db id = some r) :
    ∃ r2, has_seen (applyCall db c) id = some r2 ∧
      r2.first_seen_at = r.first_seen_at ∧
      (∀ p, r.posted_at = some p → r2.posted_at = some p) := by
  by_cases he : c.external_id = id
  · refine ⟨mergeSeen r c.source_id c.title c.url c.match_reason c.posted_at, ?_, rfl, ?_⟩
    · rw [applyCall, he, has_seen_mark_seen_self, h]
    · intro p hp
      simp [mergeSeen, hp, coalesce]
  · exact ⟨r, by rw [applyCall, has_seen_mark_seen_ne _ _ _ _ _ _ _ _ _ he, h], rfl,
      fun p hp => hp⟩

theorem record_fields_preserved (db : StoreDB) (id : String) (r : SeenRecord)
    (calls : List MarkCall) (h : has_seen db id = some r) :
    ∃ r2, has_seen (runCalls db calls) id = some r2 ∧
      r2.first_seen_at = r.first_seen_at ∧
      (∀ p, r.posted_at = some p → r2.posted_at = some p) := by
  induction calls generalizing db r with
  | nil => exact ⟨r, h, rfl, fun _ hp => hp⟩
  | cons c rest ih =>
    obtain ⟨r1, h1, hf1, hp1⟩ := record_fields_preserved_one db id r c h
    obtain ⟨r2, h2, hf2, hp2⟩ := ih (applyCall db c) r1 h1
    exact ⟨r2, h2, hf2.trans hf1, fun p hp => hp2 p (hp1 p hp)⟩

/-! ### C3 -/

/-- C3: when `mark_seen` hits an existing record, `source_id`/`title`/`url`
are overwritten with the new values, `match_reason` is overwritten exactly
when the new value is non-null (kept otherwise), and a non-null `posted_at` is
never changed by the present call nor by any sequence of later `mark_seen`
calls, regardless of their arguments. -/
theorem C3_mark_seen_merge_upsert (db : StoreDB) (now : Nat)
    (id sid t u : String) (mr : Option String) (pa : Option Nat)
    (r : SeenRecord) (h : has_seen db id = some r) :
    has_seen (mark_seen db now id sid t u mr pa) id =
      some (mergeSeen r sid t u mr pa) ∧
    (mergeSeen r sid t u mr pa).source_id = sid ∧
    (mergeSeen r sid t u mr pa).title = t ∧
    (mergeSeen r sid t u mr pa).url = u ∧
    (∀ v : String, mr = some v → (mergeSeen r sid t u mr pa).match_reason = some v) ∧
    (mr = none → (mergeSeen r sid t u mr pa).match_reason = r.match_reason) ∧
    (∀ p : Nat, r.posted_at = some p →
      (mergeSeen r sid t u mr pa).posted_at = some p ∧
      ∀ calls : List MarkCall,
        ∃ r2, has_seen (runCalls db calls) id = some r2 ∧ r2.posted_at = some p) := by
  refine ⟨by rw [has_seen_mark_seen_self, h], rfl, rfl, rfl, ?_, ?_, ?_⟩
  · intro v hv; simp [mergeSeen, hv, coalesce]
  · intro hv; simp [mergeSeen, hv, coalesce]
  · intro p hp
    refine ⟨by simp [mergeSeen, hp, coalesce], ?_⟩
    intro calls
    obtain ⟨r2, h2, _, hp2⟩ := record_fields_preserved db id r calls h
    exact ⟨r2, h2, hp2 p hp⟩

/-- Witness for C3 at a concrete store, call and follow-up call sequence. -/
theorem C3_mark_seen_merge_upsert_witness :
    has_seen [⟨"id1", "s", 0, some 5, "t", "u", some "why"⟩] "id1" =
      some ⟨"id1", "s", 0, some 5, "t", "u", some "why"⟩ ∧
    (∀ p : Nat, (⟨"id1", "s", 0, some 5, "t", "u", some "why"⟩ : SeenRecord).posted_at = some p →
      (mergeSeen ⟨"id1", "s", 0, some 5, "t", "u", some "why"⟩ "s2" "t2" "u2" none (some 9)).posted_at = some p ∧
      ∀ calls : List MarkCall,
        ∃ r2, has_seen (runCalls [⟨"id1", "s", 0, some 5, "t", "u", some "why"⟩] calls) "id1" = some r2 ∧
          r2.posted_at = some p) := by
  refine ⟨by decide, ?_⟩
  exact (C3_mark_seen_merge_upsert [⟨"id1", "s", 0, some 5, "t", "u", some "why"⟩]
    7 "id1" "s2" "t2" "u2" none (some 9) ⟨"id1", "s", 0, some 5, "t", "u", some "why"⟩
    (by decide)).2.2.2.2.2.2

/-! ### C10 -/

/-- C10: the SQL upsert's UPDATE clause does not assign `first_seen_at`, so an
existing record's `first_seen_at` survives the present `mark_seen` call and
any sequence of later `mark_seen` calls, regardless of their arguments. -/
theorem C10_first_seen_at_preserved (db : StoreDB) (now : Nat)
    (id sid t u : String) (mr : Option String) (pa : Option Nat)
    (r : SeenRecord) (h : has_seen db id = some r) :
    has_seen (mark_seen db now id sid t u mr pa) id =
      some (mergeSeen r sid t u mr pa) ∧
    (mergeSeen r sid t u mr pa).first_seen_at = r.first_seen_at ∧
    (∀ calls : List MarkCall,
      ∃ r2, has_seen (runCalls db calls) id = some r2 ∧
        r2.first_seen_at = r.first_seen_at) := by
  refine ⟨by rw [has_seen_mark_seen_self, h], rfl, ?_⟩
  intro calls
  obtain ⟨r2, h2, hf2, _⟩ := record_fields_preserved db id r calls h
  exact ⟨r2, h2, hf2⟩

/-- Witness for C10 at a concrete store and calls. -/
theorem C10_first_seen_at_preserved_witness :
    has_seen [⟨"id1", "s", 3, none, "t", "u", none⟩] "id1" =
      some ⟨"id1", "s", 3, none, "t", "u", none⟩ ∧
    (mergeSeen ⟨"id1", "s", 3, none, "t", "u", none⟩ "s2" "t2" "u2" (some "m") (some 9)).first_seen_at = 3 ∧
    (∀ calls : List MarkCall,
      ∃ r2, has_seen (runCalls [⟨"id1", "s", 3, none, "t", "u", none⟩] calls) "id1" = some r2 ∧
        r2.first_seen_at = 3) := by
  refine ⟨by decide, ?_, ?_⟩
  · exact (C10_first_seen_at_preserved [⟨"id1", "s", 3, none, "t", "u", none⟩]
      7 "id1" "s2" "t2" "u2" (some "m") (some 9) ⟨"id1", "s", 3, none, "t", "u", none⟩
      (by decide)).2.1
  · exact (C10_first_seen_at_preserved [⟨"id1", "s", 3, none, "t", "u", none⟩]
      7 "id1" "s2" "t2" "u2" (some "m") (some 9) ⟨"id1", "s", 3, none, "t", "u", none⟩
      (by decide)).2.2

/-! ### Service lemmas -/

theorem processOpportunity_events_eid (cfg : ServiceConfig) (now : Nat)
    (db : StoreDB) (stats : RunStats) (o : Opportunity) :
    ∀ e ∈ (processOpportunity cfg now db stats o).events, e.eid = o.external_id := by
  intro e he
  unfold processOpportunity at he
  dsimp only at he
  split at he
  · simp at he
  · split at he
    · simp at he
    · split at he
      · split at he
        · simp at he
          rw [he]; rfl
        · simp at he
      · split at he
        · simp at he
          rw [he]; rfl
        · split at he
          · simp at he
          · split at he
            · simp at he
              rcases he with h | h | h <;> rw [h] <;> rfl
            · simp at he
              rcases he with h | h | h <;> rw [h] <;> rfl

theorem processOpportunity_db_ne (cfg : ServiceConfig) (now : Nat)
    (db : StoreDB) (stats : RunStats) (o : Opportunity) (id : String)
    (hne : o.external_id ≠ id) :
    has_seen (processOpportunity cfg now db stats o).db id = has_seen db id := by
  unfold processOpportunity
  dsimp only
  split
  · rfl
  · split
    · rfl
    · split
      · split
        · exact has_seen_mark_seen_ne _ _ _ _ _ _ _ _ _ hne
        · rfl
      · split
        · rfl
        · split
          · rfl
          · split
            · rw [has_seen_mark_seen_ne _ _ _ _ _ _ _ _ _ hne,
                has_seen_mark_seen_ne _ _ _ _ _ _ _ _ _ hne]
            · rw [has_seen_mark_seen_ne _ _ _ _ _ _ _ _ _ hne,
                has_seen_mark_seen_ne _ _ _ _ _ _ _ _ _ hne]

theorem processOpportunity_skip_posted (cfg : ServiceConfig) (now : Nat)
    (db : StoreDB) (stats : RunStats) (o : Opportunity) (r : SeenRecord)
    (h : has_seen db o.external_id = some r) (hp : r.posted_at.isSome = true) :
    processOpportunity cfg now db stats o =
      ⟨db, { stats with processed := stats.processed + 1, skipped_already_posted := stats.skipped_already_posted + 1 }, [], false⟩ := by
  unfold processOpportunity
  simp [h, hp]

theorem processOpportunity_skip_pending (cfg : ServiceConfig) (now : Nat)
    (db : StoreDB) (stats : RunStats) (o : Opportunity) (r : SeenRecord)
    (h : has_seen db o.external_id = some r) (hp : r.posted_at = none)
    (hpend : is_pending_post_reason r.match_reason = true) :
    processOpportunity cfg now db stats o =
      ⟨db, { stats with processed := stats.processed + 1, skipped_pending_confirmation := stats.skipped_pending_confirmation + 1 }, [], false⟩ := by
  unfold processOpportunity
  simp [h, hp, hpend]

theorem processOpportunity_guard (cfg : ServiceConfig) (now : Nat)
    (db : StoreDB) (stats : RunStats) (o : Opportunity) (id : String)
    (hg : skipGuard db id) :
    (∀ e ∈ (processOpportunity cfg now db stats o).events, e.eid ≠ id) ∧
    skipGuard (processOpportunity cfg now db stats o).db id := by
  by_cases he : o.external_id = id
  · obtain ⟨r, hr, hcase⟩ := hg
    have hro : has_seen db o.external_id = some r := by rw [he]; exact hr
    rcases hcase with hp | ⟨hp, hpend⟩
    · rw [processOpportunity_skip_posted cfg now db stats o r hro hp]
      exact ⟨by intro e h; simp at h, ⟨r, hr, Or.inl hp⟩⟩
    · rw [processOpportunity_skip_pending cfg now db stats o r hro hp hpend]
      exact ⟨by intro e h; simp at h, ⟨r, hr, Or.inr ⟨hp, hpend⟩⟩⟩
  · constructor
    · intro e hev
      rw [processOpportunity_events_eid cfg now db stats o e hev]
      exact he
    · obtain ⟨r, hr, hcase⟩ := hg
      exact ⟨r, by rw [processOpportunity_db_ne cfg now db stats o id he]; exact hr, hcase⟩

theorem runOpportunities_guard (cfg : ServiceConfig) (now : Nat) (id : String) :
    ∀ (opps : List Opportunity) (db : StoreDB) (stats : RunStats),
    skipGuard db id →
    (∀ e ∈ (runOpportunities cfg now db stats opps).events, e.eid ≠ id) ∧
    skipGuard (runOpportunities cfg now db stats opps).db id := by
  intro opps
  induction opps with
  | nil => intro db stats hg; exact ⟨by intro e h; simp [runOpportunities] at h, hg⟩
  | cons o rest ih =>
    intro db stats hg
    unfold runOpportunities
    dsimp only
    split
    · exact ⟨by intro e h; simp at h, hg⟩
    · obtain ⟨h1, hg1⟩ := processOpportunity_guard cfg now db stats o id hg
      split
      · exact ⟨h1, hg1⟩
      · obtain ⟨h2, hg2⟩ := ih (processOpportunity cfg now db stats o).db
          (processOpportunity cfg now db stats o).stats hg1
        refine ⟨?_, hg2⟩
        intro e hev
        simp only [List.mem_append] at hev
        rcases hev with hev | hev
        · exact h1 e hev
        · exact h2 e hev

theorem runSources_guard (cfg : ServiceConfig) (now : Nat) (id : String) :
    ∀ (fetches : List FetchResult) (db : StoreDB) (stats : RunStats),
    skipGuard db id →
    (∀ e ∈ (runSources cfg now db stats fetches).events, e.eid ≠ id) ∧
    skipGuard (runSources cfg now db stats fetches).db id := by
  intro fetches
  induction fetches with
  | nil => intro db stats hg; exact ⟨by intro e h; simp [runSources] at h, hg⟩
  | cons f rest ih =>
    intro db stats hg
    unfold runSources
    dsimp only
    match f with
    | .error msg => exact ih db _ hg
    | .ok opps =>
      dsimp only
      obtain ⟨h1, hg1⟩ := runOpportunities_guard cfg now id opps db stats hg
      split
      · exact ⟨h1, hg1⟩
      · obtain ⟨h2, hg2⟩ := ih (runOpportunities cfg now db stats opps).db
          (runOpportunities cfg now db stats opps).stats hg1
        refine ⟨?_, hg2⟩
        intro e hev
        simp only [List.mem_append] at hev
        rcases hev with hev | hev
        · exact h1 e hev
        · exact h2 e hev

/-! ### C1 -/

/-- C1: an opportunity whose stored record is already posted, or carries the
pending-post sentinel, is skipped — the step leaves the store untouched,
produces no events, and bumps exactly the corresponding skip counter
(besides `processed`); moreover no event of the whole run (store write,
notifier invocation or preview) ever touches such an id. -/
theorem C1_skip_posted_or_pending (cfg : ServiceConfig) (now : Nat)
    (db : StoreDB) (stats : RunStats) (o : Opportunity) (r : SeenRecord)
    (h : has_seen db o.external_id = some r) :
    (r.posted_at.isSome = true →
      processOpportunity cfg now db stats o =
        ⟨db, { stats with processed := stats.processed + 1, skipped_already_posted := stats.skipped_already_posted + 1 }, [], false⟩) ∧
    (r.posted_at = none → is_pending_post_reason r.match_reason = true →
      processOpportunity cfg now db stats o =
        ⟨db, { stats with processed := stats.processed + 1, skipped_pending_confirmation := stats.skipped_pending_confirmation + 1 }, [], false⟩) ∧
    (r.posted_at.isSome = true ∨
        (r.posted_at = none ∧ is_pending_post_reason r.match_reason = true) →
      ∀ fetches : List FetchResult,
        ∀ e ∈ (run_once cfg now db fetches).events, e.eid ≠ o.external_id) := by
  refine ⟨fun hp => processOpportunity_skip_posted cfg now db stats o r h hp,
    fun hp hpend => processOpportunity_skip_pending cfg now db stats o r h hp hpend,
    ?_⟩
  intro hcase fetches
  exact (runSources_guard cfg now o.external_id fetches db { } ⟨r, h, hcase⟩).1

/-- Witness for C1 at a concrete configuration, store and run. -/
theorem C1_skip_posted_or_pending_witness :
    has_seen
      [⟨"a", "s", 0, some 4, "t", "u", some "why"⟩,
       ⟨"b", "s", 0, none, "t", "u", some "__pending_post__"⟩] "a" =
      some ⟨"a", "s", 0, some 4, "t", "u", some "why"⟩ ∧
    processOpportunity
      ⟨fun _ => ⟨true, ["m"]⟩, true, fun _ => true, 5, true, false⟩ 9
      [⟨"a", "s", 0, some 4, "t", "u", some "why"⟩,
       ⟨"b", "s", 0, none, "t", "u", some "__pending_post__"⟩]
      { } { source_id := "s", external_id := "a", title := "t2", url := "u2", published_at := none, summary := "sum" } =
      ⟨[⟨"a", "s", 0, some 4, "t", "u", some "why"⟩,
        ⟨"b", "s", 0, none, "t", "u", some "__pending_post__"⟩],
       { processed := 1, skipped_already_posted := 1 }, [], false⟩ := by
  constructor
  · decide
  · have h := C1_skip_posted_or_pending
      ⟨fun _ => ⟨true, ["m"]⟩, true, fun _ => true, 5, true, false⟩ 9
      [⟨"a", "s", 0, some 4, "t", "u", some "why"⟩,
       ⟨"b", "s", 0, none, "t", "u", some "__pending_post__"⟩]
      { } { source_id := "s", external_id := "a", title := "t2", url := "u2", published_at := none, summary := "sum" }
      ⟨"a", "s", 0, some 4, "t", "u", some "why"⟩ (by decide)
    exact h.1 (by decide)

/-! ### C2 -/

/-- C2: on a match in non-dry-run mode with a notifier present, the service
writes the pending-post sentinel (with null `posted_at`) strictly before
invoking the notifier — the event trace is exactly
`[markSeen pending, notify, markSeen final]`. If the notifier raises, the
record is overwritten with the `__post_failed__: <reason>` marker (still
unposted), one run error is recorded, the posted count is not incremented and
the run continues; if it succeeds, the record is overwritten with the real
match reason and a non-null `posted_at`, and the posted count is incremented
by one. -/
theorem C2_pending_before_notify (cfg : ServiceConfig) (now : Nat)
    (db : StoreDB) (stats : RunStats) (o : Opportunity)
    (hm : (cfg.filter_engine o).matched = true)
    (hd : cfg.dry_run = false)
    (hn : cfg.notifierPresent = true)
    (hskip : ∀ r, has_seen db o.external_id = some r →
      r.posted_at = none ∧ is_pending_post_reason r.match_reason = false) :
    (cfg.notifierOk o = true →
      processOpportunity cfg now db stats o =
        ⟨mark_seen (mark_seen db now o.external_id o.source_id o.title o.url (some PENDING_POST_MARKER) none) now o.external_id o.source_id o.title o.url (some (cfg.filter_engine o).reason_text) (some now),
         { stats with processed := stats.processed + 1, matched := stats.matched + 1, posted := stats.posted + 1 },
         [.markSeen o.external_id o.source_id o.title o.url (some PENDING_POST_MARKER) none,
          .notify o.external_id (cfg.filter_engine o).reason_text,
          .markSeen o.external_id o.source_id o.title o.url (some (cfg.filter_engine o).reason_text) (some now)],
         false⟩ ∧
      ∃ r2, has_seen (processOpportunity cfg now db stats o).db o.external_id = some r2 ∧
        r2.match_reason = some (cfg.filter_engine o).reason_text ∧
        r2.posted_at = some now) ∧
    (cfg.notifierOk o = false →
      processOpportunity cfg now db stats o =
        ⟨mark_seen (mark_seen db now o.external_id o.source_id o.title o.url (some PENDING_POST_MARKER) none) now o.external_id o.source_id o.title o.url (some (POST_FAILED_MARKER ++ ": " ++ (cfg.filter_engine o).reason_text)) none,
         { stats with processed := stats.processed + 1, matched := stats.matched + 1, errors := stats.errors ++ ["failed to post " ++ o.external_id] },
         [.markSeen o.external_id o.source_id o.title o.url (some PENDING_POST_MARKER) none,
          .notify o.external_id (cfg.filter_engine o).reason_text,
          .markSeen o.external_id o.source_id o.title o.url (some (POST_FAILED_MARKER ++ ": " ++ (cfg.filter_engine o).reason_text)) none],
         false⟩ ∧
      ∃ r2, has_seen (processOpportunity cfg now db stats o).db o.external_id = some r2 ∧
        r2.match_reason = some (POST_FAILED_MARKER ++ ": " ++ (cfg.filter_engine o).reason_text) ∧
        r2.posted_at = none) := by
  have hguards :
      (match has_seen db o.external_id with
        | some r => r.posted_at.isSome
        | none => false) = false ∧
      (match has_seen db o.external_id with
        | some r => is_pending_post_reason r.match_reason
        | none => false) = false := by
    cases hseen : has_seen db o.external_id with
    | none => exact ⟨rfl, rfl⟩
    | some r =>
      obtain ⟨h1, h2⟩ := hskip r hseen
      simp [h1, h2]
  have hfinal : ∀ mr2 pa2,
      ∃ r2, has_seen (mark_seen (mark_seen db now o.external_id o.source_id o.title o.url (some PENDING_POST_MARKER) none) now o.external_id o.source_id o.title o.url (some mr2) pa2) o.external_id = some r2 ∧
        r2.match_reason = some mr2 ∧ r2.posted_at = coalesce none pa2 := by
    intro mr2 pa2
    rw [has_seen_mark_seen_self, has_seen_mark_seen_self]
    cases hseen : has_seen db o.external_id with
    | none =>
      exact ⟨_, rfl, rfl, by simp [mergeSeen, coalesce]⟩
    | some r =>
      obtain ⟨h1, _⟩ := hskip r hseen
      exact ⟨_, rfl, rfl, by simp [mergeSeen, coalesce, h1]⟩
  constructor
  · intro hok
    have hstep : processOpportunity cfg now db stats o =
        ⟨mark_seen (mark_seen db now o.external_id o.source_id o.title o.url (some PENDING_POST_MARKER) none) now o.external_id o.source_id o.title o.url (some (cfg.filter_engine o).reason_text) (some now),
         { stats with processed := stats.processed + 1, matched := stats.matched + 1, posted := stats.posted + 1 },
         [.markSeen o.external_id o.source_id o.title o.url (some PENDING_POST_MARKER) none,
          .notify o.external_id (cfg.filter_engine o).reason_text,
          .markSeen o.external_id o.source_id o.title o.url (some (cfg.filter_engine o).reason_text) (some now)],
         false⟩ := by
      unfold processOpportunity
      simp [hguards.1, hguards.2, hm, hd, hn, hok]
    refine ⟨hstep, ?_⟩
    rw [hstep]
    obtain ⟨r2, hr2, hmr, hpa⟩ := hfinal (cfg.filter_engine o).reason_text (some now)
    exact ⟨r2, hr2, hmr, by rw [hpa]; rfl⟩
  · intro hok
    have hstep : processOpportunity cfg now db stats o =
        ⟨mark_seen (mark_seen db now o.external_id o.source_id o.title o.url (some PENDING_POST_MARKER) none) now o.external_id o.source_id o.title o.url (some (POST_FAILED_MARKER ++ ": " ++ (cfg.filter_engine o).reason_text)) none,
         { stats with processed := stats.processed + 1, matched := stats.matched + 1, errors := stats.errors ++ ["failed to post " ++ o.external_id] },
         [.markSeen o.external_id o.source_id o.title o.url (some PENDING_POST_MARKER) none,
          .notify o.external_id (cfg.filter_engine o).reason_text,
          .markSeen o.external_id o.source_id o.title o.url (some (POST_FAILED_MARKER ++ ": " ++ (cfg.filter_engine o).reason_text)) none],
         false⟩ := by
      unfold processOpportunity
      simp [hguards.1, hguards.2, hm, hd, hn, hok]
    refine ⟨hstep, ?_⟩
    rw [hstep]
    obtain ⟨r2, hr2, hmr, hpa⟩ :=
      hfinal (POST_FAILED_MARKER ++ ": " ++ (cfg.filter_engine o).reason_text) none
    exact ⟨r2, hr2, hmr, by rw [hpa]; rfl⟩

/-- Witness for C2: a concrete matched opportunity, fresh store, failing
notifier (the hypotheses are discharged at this input). -/
theorem C2_pending_before_notify_witness :
    ((⟨fun _ => ⟨true, ["kw"]⟩, true, fun _ => false, 5, true, false⟩ : ServiceConfig).filter_engine
        { source_id := "s", external_id := "x", title := "t", url := "u", published_at := none, summary := "sm" }).matched = true ∧
    processOpportunity ⟨fun _ => ⟨true, ["kw"]⟩, true, fun _ => false, 5, true, false⟩ 11 [] { }
        { source_id := "s", external_id := "x", title := "t", url := "u", published_at := none, summary := "sm" } =
      ⟨mark_seen (mark_seen [] 11 "x" "s" "t" "u" (some PENDING_POST_MARKER) none) 11 "x" "s" "t" "u" (some (POST_FAILED_MARKER ++ ": " ++ "kw")) none,
       { processed := 1, matched := 1, errors := ["failed to post " ++ "x"] },
       [.markSeen "x" "s" "t" "u" (some PENDING_POST_MARKER) none,
        .notify "x" "kw",
        .markSeen "x" "s" "t" "u" (some (POST_FAILED_MARKER ++ ": " ++ "kw")) none],
       false⟩ := by
  constructor
  · decide
  · have h := (C2_pending_before_notify
      ⟨fun _ => ⟨true, ["kw"]⟩, true, fun _ => false, 5, true, false⟩ 11 [] { }
      { source_id := "s", external_id := "x", title := "t", url := "u", published_at := none, summary := "sm" }
      (by decide) rfl rfl (by intro r hr; simp [has_seen] at hr)).2 rfl
    exact h.1.trans (by decide)

/-! ### C8 -/

theorem processOpportunity_dry (cfg : ServiceConfig) (now : Nat)
    (db : StoreDB) (stats : RunStats) (o : Opportunity)
    (hd : cfg.dry_run = true) :
    (processOpportunity cfg now db stats o).db = db ∧
    ∀ e ∈ (processOpportunity cfg now db stats o).events,
      e.isMarkSeen = false ∧ e.isNotify = false := by
  unfold processOpportunity
  dsimp only
  split
  · exact ⟨rfl, by intro e h; simp at h⟩
  · split
    · exact ⟨rfl, by intro e h; simp at h⟩
    · split
      · rw [if_neg (by rw [hd]; simp)]
        exact ⟨rfl, by intro e h; simp at h⟩
      · refine ⟨rfl, ?_⟩
        intro e h
        simp only [List.mem_singleton] at h
        rw [h]
        exact ⟨rfl, rfl⟩

theorem runOpportunities_dry (cfg : ServiceConfig) (now : Nat)
    (hd : cfg.dry_run = true) :
    ∀ (opps : List Opportunity) (db : StoreDB) (stats : RunStats),
    (runOpportunities cfg now db stats opps).db = db ∧
    ∀ e ∈ (runOpportunities cfg now db stats opps).events,
      e.isMarkSeen = false ∧ e.isNotify = false := by
  intro opps
  induction opps with
  | nil => intro db stats; exact ⟨rfl, by intro e h; simp [runOpportunities] at h⟩
  | cons o rest ih =>
    intro db stats
    unfold runOpportunities
    dsimp only
    split
    · exact ⟨rfl, by intro e h; simp at h⟩
    · obtain ⟨hdb1, hev1⟩ := processOpportunity_dry cfg now db stats o hd
      split
      · exact ⟨hdb1, hev1⟩
      · obtain ⟨hdb2, hev2⟩ := ih (processOpportunity cfg now db stats o).db
          (processOpportunity cfg now db stats o).stats
        refine ⟨hdb2.trans hdb1, ?_⟩
        intro e hev
        simp only [List.mem_append] at hev
        rcases hev with hev | hev
        · exact hev1 e hev
        · exact hev2 e hev

theorem runSources_dry (cfg : ServiceConfig) (now : Nat)
    (hd : cfg.dry_run = true) :
    ∀ (fetches : List FetchResult) (db : StoreDB) (stats : RunStats),
    (runSources cfg now db stats fetches).db = db ∧
    ∀ e ∈ (runSources cfg now db stats fetches).events,
      e.isMarkSeen = false ∧ e.isNotify = false := by
  intro fetches
  induction fetches with
  | nil => intro db stats; exact ⟨rfl, by intro e h; simp [runSources] at h⟩
  | cons f rest ih =>
    intro db stats
    unfold runSources
    dsimp only
    match f with
    | .error msg => exact ih db _
    | .ok opps =>
      dsimp only
      obtain ⟨hdb1, hev1⟩ := runOpportunities_dry cfg now hd opps db stats
      split
      · exact ⟨hdb1, hev1⟩
      · obtain ⟨hdb2, hev2⟩ := ih (runOpportunities cfg now db stats opps).db
          (runOpportunities cfg now db stats opps).stats
        refine ⟨hdb2.trans hdb1, ?_⟩
        intro e hev
        simp only [List.mem_append] at hev
        rcases hev with hev | hev
        · exact hev1 e hev
        · exact hev2 e hev

/-- C8: in dry-run mode a whole run leaves the store exactly as it was and
never writes the store nor invokes the notifier; per opportunity, a match
produces only a preview event, and a non-match produces no event at all even
when `record_non_matches_as_seen` is enabled. -/
theorem C8_dry_run_no_mutation (cfg : ServiceConfig) (now : Nat)
    (hd : cfg.dry_run = true) :
    (∀ (db : StoreDB) (fetches : List FetchResult),
      (run_once cfg now db fetches).db = db ∧
      ∀ e ∈ (run_once cfg now db fetches).events,
        e.isMarkSeen = false ∧ e.isNotify = false) ∧
    (∀ (db : StoreDB) (stats : RunStats) (o : Opportunity),
      (cfg.filter_engine o).matched = true →
      (∀ r, has_seen db o.external_id = some r →
        r.posted_at = none ∧ is_pending_post_reason r.match_reason = false) →
      processOpportunity cfg now db stats o =
        ⟨db, { stats with processed := stats.processed + 1, matched := stats.matched + 1 },
         [.preview o.external_id (cfg.filter_engine o).reason_text], false⟩) ∧
    (∀ (db : StoreDB) (stats : RunStats) (o : Opportunity),
      (cfg.filter_engine o).matched = false →
      (∀ r, has_seen db o.external_id = some r →
        r.posted_at = none ∧ is_pending_post_reason r.match_reason = false) →
      processOpportunity cfg now db stats o =
        ⟨db, { stats with processed := stats.processed + 1, filtered_out := stats.filtered_out + 1 },
         [], false⟩) := by
  refine ⟨fun db fetches => runSources_dry cfg now hd fetches db { }, ?_, ?_⟩
  · intro db stats o hm hskip
    have hguards :
        (match has_seen db o.external_id with
          | some r => r.posted_at.isSome
          | none => false) = false ∧
        (match has_seen db o.external_id with
          | some r => is_pending_post_reason r.match_reason
          | none => false) = false := by
      cases hseen : has_seen db o.external_id with
      | none => exact ⟨rfl, rfl⟩
      | some r =>
        obtain ⟨h1, h2⟩ := hskip r hseen
        simp [h1, h2]
    unfold processOpportunity
    simp [hguards.1, hguards.2, hm, hd]
  · intro db stats o hm hskip
    have hguards :
        (match has_seen db o.external_id with
          | some r => r.posted_at.isSome
          | none => false) = false ∧
        (match has_seen db o.external_id with
          | some r => is_pending_post_reason r.match_reason
          | none => false) = false := by
      cases hseen : has_seen db o.external_id with
      | none => exact ⟨rfl, rfl⟩
      | some r =>
        obtain ⟨h1, h2⟩ := hskip r hseen
        simp [h1, h2]
    unfold processOpportunity
    simp [hguards.1, hguards.2, hm, hd]

/-- Witness for C8: a concrete dry run over one source with a matching and a
non-matching opportunity, with `record_non_matches_as_seen` enabled, leaves
the concrete store unchanged. -/
theorem C8_dry_run_no_mutation_witness :
    (run_once ⟨fun o => ⟨o.title = "good", ["kw"]⟩, true, fun _ => true, 5, true, true⟩ 3
        [⟨"a", "s", 0, none, "t", "u", none⟩]
        [.ok [{ source_id := "s", external_id := "g", title := "good", url := "u", published_at := none, summary := "" },
              { source_id := "s", external_id := "b", title := "bad", url := "u", published_at := none, summary := "" }]]).db =
      [⟨"a", "s", 0, none, "t", "u", none⟩] ∧
    ∀ e ∈ (run_once ⟨fun o => ⟨o.title = "good", ["kw"]⟩, true, fun _ => true, 5, true, true⟩ 3
        [⟨"a", "s", 0, none, "t", "u", none⟩]
        [.ok [{ source_id := "s", external_id := "g", title := "good", url := "u", published_at := none, summary := "" },
              { source_id := "s", external_id := "b", title := "bad", url := "u", published_at := none, summary := "" }]]).events,
      e.isMarkSeen = false ∧ e.isNotify = false :=
  (C8_dry_run_no_mutation
    ⟨fun o => ⟨o.title = "good", ["kw"]⟩, true, fun _ => true, 5, true, true⟩ 3 rfl).1
    [⟨"a", "s", 0, none, "t", "u", none⟩]
    [.ok [{ source_id := "s", external_id := "g", title := "good", url := "u", published_at := none, summary := "" },
          { source_id := "s", external_id := "b", title := "bad", url := "u", published_at := none, summary := "" }]]

/-! ### Keyword matcher lemmas -/

theorem goodQueryChar_not_qm (c : Char) (h : goodQueryChar c = true) :
    (c = '?') = false := by
  cases hp : decide (c = '?')
  · simpa using hp
  · have hq := of_decide_eq_true hp
    subst hq
    exact absurd h (by decide)

/-! ### splitAtFirst lemmas -/

theorem dropWhile_eq_self_head (p : Char → Bool) (cs : List Char)
    (h : ∀ c, cs.head? = some c → p c = false) : cs.dropWhile p = cs := by
  cases cs with
  | nil => rfl
  | cons c rest =>
    have := h c rfl
    simp [List.dropWhile, this]

theorem head_dropWhile_false (p : Char → Bool) :
    ∀ (cs : List Char) (c : Char), (cs.dropWhile p).head? = some c → p c = false := by
  intro cs
  induction cs with
  | nil => intro c h; simp at h
  | cons d rest ih =>
    intro c h
    by_cases hd : p d
    · rw [List.dropWhile_cons_of_pos hd] at h
      exact ih c h
    · rw [List.dropWhile_cons_of_neg hd] at h
      injection h with h
      rw [← h]
      simpa using hd

theorem dropTrailing_eq_self (p : Char → Bool) (cs : List Char)
    (h : ∀ c, cs.getLast? = some c → p c = false) : dropTrailing p cs = cs := by
  unfold dropTrailing
  rw [dropWhile_eq_self_head p cs.reverse
    (fun c hc => h c (by rwa [List.head?_reverse] at hc))]
  exact List.reverse_reverse cs

theorem getLast_dropTrailing_false (p : Char → Bool) (cs : List Char) (c : Char)
    (h : (dropTrailing p cs).getLast? = some c) : p c = false := by
  unfold dropTrailing at h
  rw [← List.head?_reverse, List.reverse_reverse] at h
  exact head_dropWhile_false p cs.reverse c h

theorem dropTrailing_isPrefix (p : Char → Bool) (cs : List Char) :
    ∃ t, cs = dropTrailing p cs ++ t := by
  unfold dropTrailing
  obtain ⟨t, ht⟩ := (List.dropWhile_suffix p (l := cs.reverse))
  refine ⟨t.reverse, ?_⟩
  have : cs.reverse.reverse = ((cs.reverse.dropWhile p).reverse ++ t.reverse).reverse.reverse := by
    rw [List.reverse_reverse, List.reverse_append, List.reverse_reverse,
      List.reverse_reverse, ht, List.reverse_reverse]
  simpa using this

theorem head_dropTrailing (p : Char → Bool) (cs : List Char) (c : Char)
    (h : (dropTrailing p cs).head? = some c) : cs.head? = some c := by
  obtain ⟨t, ht⟩ := dropTrailing_isPrefix p cs
  rw [ht]
  cases hd : dropTrailing p cs with
  | nil => rw [hd] at h; cases h
  | cons x xs =>
    rw [hd] at h
    injection h with h
    rw [← h]
    rfl

theorem pyStrip_noop (cs : List Char)
    (hhead : ∀ c, cs.head? = some c → isPySpaceChar c = false)
    (hlast : ∀ c, cs.getLast? = some c → isPySpaceChar c = false) :
    pyStripList cs = cs := by
  unfold pyStripList
  rw [dropWhile_eq_self_head _ cs hhead, dropTrailing_eq_self _ cs hlast]

theorem pyStrip_idem (cs : List Char) :
    pyStripList (pyStripList cs) = pyStripList cs := by
  apply pyStrip_noop
  · intro c h
    have h2 := head_dropTrailing isPySpaceChar (cs.dropWhile isPySpaceChar) c h
    exact head_dropWhile_false isPySpaceChar cs c h2
  · intro c h
    exact getLast_dropTrailing_false isPySpaceChar _ c h

/-! ### Sort lemmas -/

theorem getLast2_some (l : List Char) (h : l ≠ []) : ∃ e, l.getLast? = some e := by
  rw [← List.head?_reverse]
  cases hlr : l.reverse with
  | nil => exact absurd (List.reverse_eq_nil_iff.mp hlr) h
  | cons x xs => exact ⟨x, rfl⟩

end FundingBot
